import Mathlib

/-!
Shallow embedding of the rama model lifecycle controller
(src/model.py and src/app.py) and verification of the spec's claims.

Conventions of the embedding:
* File-system and process state observed by one call is frozen in an
  explicit `World` value; repeated queries inside one call therefore
  return the same answer, matching the single-invocation reading.
* Supervisor XML-RPC calls may raise: they are `Except String` values.
  Worker HTTP calls are caught inside `Program.endpoint` in the source,
  so they are modelled as total functions of a `Transport` outcome.
* Machine side effects (starting, stopping, restarting processes) are
  recorded as an explicit `ProcAction` list.
-/

set_option linter.unusedVariables false

/- Phase string constants of class `ModelStatus` (src/model.py lines 33-38).
Note the source defines exactly five phases; there is no Error phase. -/
namespace ModelStatus

def Stopped : String := "STOPPED"

def Starting : String := "STARTING"

def Training : String := "TRAINING"

def Replacing : String := "REPLACING"

def Running : String := "RUNNING"

end ModelStatus

/-- One artifact file in the model's `models/` directory: its file name and
its creation time (`st_ctime`). -/
structure Artifact where
  name : String
  ctime : Nat

deriving instance DecidableEq, Repr for Artifact

/-- Comparison used by `Model.latest`'s descending stable sort
(`models.sort(key=lambda x: x.stat().st_ctime, reverse=True)`):
`a` comes no later in the sorted output than `b` iff `b.ctime ≤ a.ctime`. -/
def Artifact.laterEq (a b : Artifact) : Prop := b.ctime ≤ a.ctime

instance : DecidableRel Artifact.laterEq :=
  fun a b => inferInstanceAs (Decidable (b.ctime ≤ a.ctime))

instance : IsTotal Artifact Artifact.laterEq :=
  ⟨fun a b => Nat.le_total b.ctime a.ctime⟩

instance : IsTrans Artifact Artifact.laterEq :=
  ⟨fun _ _ _ hab hbc => Nat.le_trans hbc hab⟩

/-- Embedding of `Model.latest` (src/model.py lines 240-249): list the
artifacts, return `none` if there are none, otherwise sort by creation time
descending, delete all but the first two, and return the name of the first.
The result is the returned value together with the directory contents left
after pruning. -/
def Model.latest (dir : List Artifact) : Option String × List Artifact :=
  if dir = [] then (none, dir)
  else
    let sorted := List.insertionSort Artifact.laterEq dir
    (sorted.head?.map Artifact.name, sorted.take 2)

/-- C2: after any `Model.latest` call the directory holds at most 2 artifacts,
all of which existed before, the result is `none` exactly when the directory
was empty, and a returned name is the name of a most-recently-created artifact
among those that existed before pruning. -/
theorem C2_retention_invariant (dir : List Artifact) :
    (Model.latest dir).2.length ≤ 2 ∧
    (∀ a ∈ (Model.latest dir).2, a ∈ dir) ∧
    ((Model.latest dir).1 = none ↔ dir = []) ∧
    (∀ n, (Model.latest dir).1 = some n →
      ∃ a ∈ dir, a.name = n ∧ ∀ b ∈ dir, b.ctime ≤ a.ctime) := by
  unfold Model.latest
  by_cases hdir : dir = []
  · subst hdir
    simp
  · simp only [if_neg hdir]
    have hperm := List.perm_insertionSort Artifact.laterEq dir
    have hsorted := List.sorted_insertionSort Artifact.laterEq dir
    refine ⟨List.length_take_le 2 _, ?_, ?_, ?_⟩
    · intro a ha
      exact hperm.mem_iff.mp (List.take_subset 2 _ ha)
    · constructor
      · intro h
        rcases hs : List.insertionSort Artifact.laterEq dir with _ | ⟨a, rest⟩
        · exact absurd (hperm.symm.trans (hs ▸ List.Perm.refl _)).eq_nil hdir
        · rw [hs] at h
          simp at h
      · intro h
        exact absurd h hdir
    · intro n hn
      rcases hs : List.insertionSort Artifact.laterEq dir with _ | ⟨a, rest⟩
      · rw [hs] at hn
        simp at hn
      · rw [hs] at hn
        simp only [List.head?_cons, Option.map_some] at hn
        refine ⟨a, ?_, ?_, ?_⟩
        · exact hperm.mem_iff.mp (hs ▸ List.mem_cons_self a rest)
        · exact (Option.some_inj.mp hn)
        · intro b hb
          have hbs : b ∈ List.insertionSort Artifact.laterEq dir := hperm.mem_iff.mpr hb
          rw [hs] at hbs
          rcases List.mem_cons.mp hbs with hba | hbr
          · exact hba ▸ Nat.le_refl _
          · exact List.rel_of_sorted_cons (hs ▸ hsorted) b hbr

/-- pathlib's `/` join (PurePath semantics): when the right operand is an
absolute path the left operand is discarded entirely. -/
def pathJoin (left right : String) : String :=
  if right.data.head? = some '/' then right else left ++ "/" ++ right

/-- The temp path computed on src/model.py line 285:
`Path('/tmp') / self.name / path`. -/
def Model.tmpPath (name path : String) : String :=
  pathJoin (pathJoin "/tmp" name) path

/-- Because `Model.path` roots every path at the absolute model directory
(`ROOT = Path(__file__).parent` is absolute), the `path` passed to the join
is absolute and the join collapses: the "temp" path is the target path
itself. -/
theorem Model.tmpPath_absolute (name path : String) (h : path.data.head? = some '/') :
    Model.tmpPath name path = path := by
  unfold Model.tmpPath pathJoin
  rw [if_pos h]

/-- State of the target file across `Model.put` calls: its content (`none`
when the file does not exist) and how many times it has been opened for
writing (each `open(..., 'w')` truncates and rewrites it in place). -/
structure PutFS where
  target : Option String
  writes : Nat

deriving instance DecidableEq, Repr for PutFS

/-- Embedding of `Model.put` (src/model.py lines 275-298) under the actual
pathlib semantics: `tmp = Path('/tmp') / self.name / path` joins the
absolute target path, so `tmp == path` (see `Model.tmpPath_absolute`) and
the "temp" file is the target itself. `open(tmp, 'w')` creates or truncates
the target and writes the serialized content (`content` is the serialized
bytes of `obj`); `filecmp.cmp(path, tmp, False)` then compares the target
file with itself, which always succeeds, so the rename never executes and
the call always returns `False` and never raises. -/
def Model.put (fs : PutFS) (content : String) : PutFS × Bool :=
  let fs1 : PutFS := { target := some content, writes := fs.writes + 1 }
  (fs1, false)

/-- C9 counterexample: `Model.put` on a path whose target does not exist
does not raise at the content comparison — the initial write itself creates
the target (the temp path is the target path), so the comparison succeeds
and the call returns `False` with the target now existing. -/
theorem C9_counterexample_put_creates_missing_target :
    Model.tmpPath "foo" "/data/model/foo/config.yml" = "/data/model/foo/config.yml" ∧
    Model.put ⟨none, 0⟩ "a" = (⟨some "a", 1⟩, false) := by
  exact ⟨rfl, rfl⟩

/-- C9 (amended): `Model.put` is total on every path, whether or not the
target exists: the joined temp path coincides with the absolute target path,
so the write creates/overwrites the target directly, the self-comparison
always succeeds, and the call returns `False` without raising. -/
theorem C9_put_total (fs : PutFS) (content : String) :
    (Model.put fs content).1.target = some content ∧
    (Model.put fs content).2 = false ∧
    (Model.put fs content).1.writes = fs.writes + 1 := by
  exact ⟨rfl, rfl, rfl⟩

/-- C5: the claimed tentative-write-compare-rename no-op discipline is
inoperative in the code: the temp path equals the target path, so even a
byte-identical write opens and rewrites the target in place (a filesystem
mutation of the target on every call, two calls = two mutations, identical
content or not), `filecmp` compares the target with itself, the rename
never fires, and `put` always returns `False`. Evaluated at the failing
input: target already holding exactly the written bytes, put twice. -/
theorem C5_put_rewrites_target_in_place :
    Model.tmpPath "foo" "/data/model/foo/config.yml" = "/data/model/foo/config.yml" ∧
    Model.put ⟨some "x", 0⟩ "x" = (⟨some "x", 1⟩, false) ∧
    Model.put (Model.put ⟨some "x", 0⟩ "x").1 "x" = (⟨some "x", 2⟩, false) := by
  exact ⟨rfl, rfl, rfl⟩

/-- Embedding of the port-search loop of `Model.port` (src/model.py lines
306-311): when the model's own directory holds no `port_*` marker, collect the
ports claimed by every model's markers and take the first port of
`range(6000, 7000, 2)` not among them; `none` when the range is exhausted
(the source would then fail at `ports[0]`). -/
def Model.allocate (used : List Nat) : Option Nat :=
  (List.range' 6000 500 2).find? (fun i => decide (i ∉ used))

/-- One first-time allocation followed by touching the model's own marker
file (src/model.py lines 312-313), which extends the set of claimed ports
visible to the next model's allocation. -/
def Model.allocStep (used : List Nat) : Option (Nat × List Nat) :=
  (Model.allocate used).map (fun p => (p, p :: used))

/-- A sequence of `n` first-time allocations for distinct model names, one
after another, each reading the markers left by the earlier ones; returns the
assigned ports in order together with the final set of claimed ports. -/
def Model.allocRun (used : List Nat) : Nat → Option (List Nat × List Nat)
  | 0 => some ([], used)
  | n + 1 =>
    match Model.allocStep used with
    | none => none
    | some pu =>
      match Model.allocRun pu.2 n with
      | none => none
      | some psu => some (pu.1 :: psu.1, psu.2)

theorem Model.allocate_not_mem {used : List Nat} {p : Nat}
    (h : Model.allocate used = some p) : p ∉ used := by
  have := List.find?_some h
  simpa using this

theorem Model.allocRun_fresh :
    ∀ (n : Nat) (used ps u : List Nat), Model.allocRun used n = some (ps, u) →
      (∀ p ∈ ps, p ∉ used) ∧ ps.Nodup ∧ ps.length = n := by
  intro n
  induction n with
  | zero =>
    intro used ps u h
    simp only [Model.allocRun, Option.some.injEq, Prod.mk.injEq] at h
    simp [← h.1]
  | succ m ih =>
    intro used ps u h
    simp only [Model.allocRun] at h
    rcases hstep : Model.allocStep used with _ | ⟨p, used'⟩
    · rw [hstep] at h
      exact absurd h (by simp)
    · rw [hstep] at h
      dsimp only at h
      rcases hrest : Model.allocRun used' m with _ | ⟨ps', u'⟩
      · rw [hrest] at h
        exact absurd h (by simp)
      · rw [hrest] at h
        simp only [Option.some.injEq, Prod.mk.injEq] at h
        obtain ⟨hps, hu⟩ := h
        obtain ⟨hfresh, hnodup, hlen⟩ := ih used' ps' u' hrest
        have hpu : Model.allocate used = some p ∧ used' = p :: used := by
          unfold Model.allocStep at hstep
          rcases halloc : Model.allocate used with _ | q
          · rw [halloc] at hstep
            exact absurd hstep (by simp)
          · rw [halloc] at hstep
            simp only [Option.map_some', Option.some.injEq, Prod.mk.injEq] at hstep
            obtain ⟨hqp, hused⟩ := hstep
            subst hqp
            exact ⟨rfl, hused.symm⟩
        have hpnot : p ∉ used := Model.allocate_not_mem hpu.1
        subst hps
        refine ⟨?_, ?_, by simp [hlen]⟩
        · intro q hq
          rcases List.mem_cons.mp hq with hqe | hqm
          · exact hqe ▸ hpnot
          · intro hmem
            exact hfresh q hqm (hpu.2 ▸ List.mem_cons_of_mem p hmem)
        · refine List.nodup_cons.mpr ⟨?_, hnodup⟩
          intro hmem
          exact hfresh p hmem (hpu.2 ▸ List.mem_cons_self p used)

/-- C8: any sequence of `n` first-time port allocations, each reading the
marker files left by the earlier ones and touching its own, assigns `n`
pairwise distinct ports, none of which collides with a port already claimed
on disk before the sequence started. -/
theorem C8_port_assignment_uniqueness (init : List Nat) (n : Nat) (ps u : List Nat)
    (h : Model.allocRun init n = some (ps, u)) :
    ps.length = n ∧ ps.Nodup ∧ ∀ p ∈ ps, p ∉ init := by
  obtain ⟨hfresh, hnodup, hlen⟩ := Model.allocRun_fresh n init ps u h
  exact ⟨hlen, hnodup, hfresh⟩

/-- C8 witness: three allocations against pre-claimed ports 6000 and 6050
yield the distinct ports 6002, 6004, 6006, avoiding the claimed ones. -/
theorem C8_port_assignment_uniqueness_witness :
    ([6002, 6004, 6006] : List Nat).length = 3 ∧
    ([6002, 6004, 6006] : List Nat).Nodup ∧
    ∀ p ∈ ([6002, 6004, 6006] : List Nat), p ∉ ([6000, 6050] : List Nat) :=
  C8_port_assignment_uniqueness [6000, 6050] 3 [6002, 6004, 6006]
    [6006, 6004, 6002, 6000, 6050] (by decide)

/-- Lookup in the memoization cache of `Model.get_model`, an association
list from model name to the identity of the constructed instance. -/
def Model.cacheLookup (name : String) : List (String × Nat) → Option Nat
  | [] => none
  | kv :: rest => if name = kv.1 then some kv.2 else Model.cacheLookup name rest

/-- Embedding of `Model.get_model` (src/model.py lines 355-358): an
`lru_cache(maxsize=None)`-memoized constructor. Object identities of
constructed `Model` instances are drawn from a fresh counter; a cache hit
returns the stored identity, a miss constructs a new instance, stores it,
and never evicts (`maxsize=None`). -/
def Model.get_model (cache : List (String × Nat)) (fresh : Nat) (name : String) :
    Nat × List (String × Nat) × Nat :=
  match Model.cacheLookup name cache with
  | some i => (i, cache, fresh)
  | none => (fresh, (name, fresh) :: cache, fresh + 1)

/-- A sequence of `Model.get_model` calls threaded through the process-wide
cache; returns the instance identity of each call in order, with the final
cache and counter. -/
def Model.getModelRun : List String → List (String × Nat) → Nat →
    List Nat × List (String × Nat) × Nat
  | [], cache, fresh => ([], cache, fresh)
  | n :: ns, cache, fresh =>
    let r := Model.get_model cache fresh n
    let rest := Model.getModelRun ns r.2.1 r.2.2
    (r.1 :: rest.1, rest.2)

theorem Model.get_model_preserves {cache : List (String × Nat)} {fresh : Nat}
    {name k : String} {v : Nat} (h : Model.cacheLookup k cache = some v) :
    Model.cacheLookup k (Model.get_model cache fresh name).2.1 = some v := by
  unfold Model.get_model
  rcases hl : Model.cacheLookup name cache with _ | i
  · simp only []
    unfold Model.cacheLookup
    have hk : k ≠ name := by
      intro he
      rw [he] at h
      rw [h] at hl
      exact absurd hl (by simp)
    simp only [hk, if_neg hk]
    exact h
  · exact h

theorem Model.get_model_lookup_self (cache : List (String × Nat)) (fresh : Nat)
    (name : String) :
    Model.cacheLookup name (Model.get_model cache fresh name).2.1 =
      some (Model.get_model cache fresh name).1 := by
  unfold Model.get_model
  rcases hl : Model.cacheLookup name cache with _ | i
  · simp [Model.cacheLookup]
  · exact hl

theorem Model.getModelRun_preserves :
    ∀ (ns : List String) (cache : List (String × Nat)) (fresh : Nat) (k : String) (v : Nat),
      Model.cacheLookup k cache = some v →
      Model.cacheLookup k (Model.getModelRun ns cache fresh).2.1 = some v := by
  intro ns
  induction ns with
  | nil => intro cache fresh k v h; exact h
  | cons n ns ih =>
    intro cache fresh k v h
    exact ih _ _ k v (Model.get_model_preserves h)

theorem Model.getModelRun_result_eq_lookup :
    ∀ (ns : List String) (cache : List (String × Nat)) (fresh : Nat) (i : Nat),
      i < ns.length →
      some ((Model.getModelRun ns cache fresh).1.getD i 0) =
        Model.cacheLookup (ns.getD i "") (Model.getModelRun ns cache fresh).2.1 := by
  intro ns
  induction ns with
  | nil => intro cache fresh i hi; exact absurd hi (by simp)
  | cons n ns ih =>
    intro cache fresh i hi
    cases i with
    | zero =>
      show some ((Model.getModelRun (n :: ns) cache fresh).1.getD 0 0) =
        Model.cacheLookup n (Model.getModelRun (n :: ns) cache fresh).2.1
      unfold Model.getModelRun
      simp only [List.getD_cons_zero]
      exact (Model.getModelRun_preserves ns _ _ n _
        (Model.get_model_lookup_self cache fresh n)).symm
    | succ j =>
      have hj : j < ns.length := by
        simpa using Nat.lt_of_succ_lt_succ hi
      show some ((Model.getModelRun (n :: ns) cache fresh).1.getD (j + 1) 0) =
        Model.cacheLookup (ns.getD j "") (Model.getModelRun (n :: ns) cache fresh).2.1
      unfold Model.getModelRun
      simp only [List.getD_cons_succ]
      exact ih _ _ j hj

/-- C10: `Model.get_model` is a memoized singleton per name: in any sequence
of calls threaded through the process-wide cache, any two calls made with the
same model name return the identical instance. -/
theorem C10_get_model_singleton (ns : List String) (i j : Nat)
    (hi : i < ns.length) (hj : j < ns.length)
    (hname : ns.getD i "" = ns.getD j "") :
    (Model.getModelRun ns [] 0).1.getD i 0 = (Model.getModelRun ns [] 0).1.getD j 0 := by
  have h1 := Model.getModelRun_result_eq_lookup ns [] 0 i hi
  have h2 := Model.getModelRun_result_eq_lookup ns [] 0 j hj
  rw [hname] at h1
  rw [← h2] at h1
  exact Option.some_inj.mp h1

/-- C10 witness: in the call sequence a, b, a the first and third call return
the same instance. -/
theorem C10_get_model_singleton_witness :
    (Model.getModelRun ["a", "b", "a"] [] 0).1.getD 0 0 =
      (Model.getModelRun ["a", "b", "a"] [] 0).1.getD 2 0 :=
  C10_get_model_singleton ["a", "b", "a"] 0 2 (by decide) (by decide) (by decide)

/-- Python string comparison (`model1 > model2` in src/model.py line 170 is
`pyLt model2 model1`): lexicographic comparison of the code-point
sequences. -/
def pyLt (a b : String) : Prop := a.data < b.data

instance : DecidableRel pyLt :=
  fun a b => inferInstanceAs (Decidable (a.data < b.data))

theorem pyLt_asymm {a b : String} (h : pyLt a b) : ¬ pyLt b a := by
  unfold pyLt at *
  exact lt_asymm h

theorem pyLt_nil {a : String} (h : a ≠ "") : pyLt "" a := by
  unfold pyLt
  rcases hd : a.data with _ | ⟨c, cs⟩
  · exact absurd (by cases a; simp_all) h
  · exact List.Lex.nil

/-- Deployment slot of a model: `program1` or `program2`
(src/model.py lines 153-154). -/
inductive Slot where
  | p1 : Slot
  | p2 : Slot

deriving instance DecidableEq, Repr for Slot

/-- The slot that is not `s`. -/
def Slot.other : Slot → Slot
  | .p1 => .p2
  | .p2 => .p1

/-- Outcome of one `GET /status` HTTP request to a worker: a response
(status code plus the optional `model_file` field of its JSON body), or a
transport error raised by the HTTP client. -/
inductive Transport where
  | resp (status : Nat) (model_file : Option String) : Transport
  | err (e : String) : Transport

deriving instance DecidableEq, Repr for Transport

/-- External state observed by one `Model.check` invocation, frozen for the
duration of the call: the supervisor's `getProcessInfo` answer for each
program (`Except` because the XML-RPC proxy raises on transport failure;
`Bool` is `state == 20` i.e. RUNNING), and the HTTP outcome for each slot's
status endpoint. -/
structure World where
  sv1 : Except String Bool
  sv2 : Except String Bool
  svT : Except String Bool
  http1 : Transport
  http2 : Transport

def World.slotRunning (w : World) : Slot → Except String Bool
  | .p1 => w.sv1
  | .p2 => w.sv2

def World.slotHttp (w : World) : Slot → Transport
  | .p1 => w.http1
  | .p2 => w.http2

/-- Embedding of `Program.endpoint` (src/model.py lines 117-138) restricted
to what `current_model` reads from it: any exception of the HTTP client is
caught and converted to status 500 with an error body (which carries no
`model_file` field); otherwise the response status and its `model_file`
field are returned. -/
def Program.endpoint : Transport → Nat × Option String
  | .resp s mf => (s, mf)
  | .err _ => (500, none)

/-- Python `s.split("/")[-1]`: the suffix after the last `/`, or the whole
string when it contains no `/` (computed by a left fold that resets at each
separator, so that it evaluates by reduction). -/
def basename (s : String) : String :=
  String.mk (s.data.foldl (fun acc c => if c = '/' then [] else acc ++ [c]) [])

/-- Embedding of `Program.current_model` (src/model.py lines 108-114):
empty string when the supervisor reports the process as not running
(raising if that query raises); otherwise `GET /status` through
`Program.endpoint`, returning the basename of `model_file` on HTTP 200 and
the empty string on any other status. -/
def Program.current_model (w : World) (s : Slot) : Except String String :=
  match w.slotRunning s with
  | .error e => .error e
  | .ok false => .ok ""
  | .ok true =>
    let r := Program.endpoint (w.slotHttp s)
    if r.1 = 200 then .ok (basename (r.2.getD ""))
    else .ok ""

/-- Mutable fields of the `ModelStatus` value object (src/model.py lines
40-46 and 67-72) that the claims refer to; timestamps and logging are
omitted. -/
structure StatusV where
  text : String
  msg : String
  is_running : Bool
  model : String

deriving instance DecidableEq, Repr for StatusV

/-- Controller state of one `Model` instance: the designated active program
(`current_program`), the artifact directory contents, and the status
object. -/
structure CState where
  current : Slot
  dir : List Artifact
  status : StatusV

deriving instance DecidableEq, Repr for CState

/-- Process commands issued during `Model.check`: the unconditional restart
of the training program at the tail of `Model.train` (recorded as
`startTrain`), a `supervisorctl restart` of a slot (recording the `force`
argument it was invoked with), or a `supervisorctl stop` of a slot. -/
inductive ProcAction where
  | startTrain : ProcAction
  | restart (s : Slot) (force : Bool) : ProcAction
  | stop (s : Slot) : ProcAction

deriving instance DecidableEq, Repr for ProcAction

def setStatus (c : CState) (text msg : String) : CState :=
  { c with status := { c.status with text := text, msg := msg } }

/-- Python truthiness of `Optional[str]`: `None` and the empty string are
falsy (`if not self.latest()`, src/model.py line 178). -/
def optFalsy : Option String → Bool
  | none => true
  | some s => s == ""

/-- Python `!=` between a `str` and an `Optional[str]`
(`status.model != self.latest()`, src/model.py line 200). -/
def strNeOpt (s : String) : Option String → Bool
  | none => true
  | some t => s != t

/-- Embedding of `Model.check` (src/model.py lines 163-206). The result is
the updated controller state and the list of process commands issued, or
the exception propagating out of the call. `await asyncio.sleep` calls are
dropped; the `self.train()` call on line 179 is abstracted to its final
status update and its unconditional restart of the training program
(recorded as `ProcAction.startTrain`; its config-file writes do not touch the
artifact directory). Status messages are kept verbatim except the `Running`
message, whose port interpolation is dropped. -/
def Model.check (w : World) (c0 : CState) : Except String (CState × List ProcAction) :=
  (Program.current_model w .p1).bind fun model1 =>
  (Program.current_model w .p2).bind fun model2 =>
  -- lines 169-173: designate active program, set status.model/is_running
  let current := if model1 ≠ model2 then (if pyLt model2 model1 then Slot.p1 else Slot.p2)
                 else c0.current
  let m := if current = Slot.p1 then model1 else model2
  let st1 : StatusV := { c0.status with model := m, is_running := decide (0 < m.length) }
  let c1 : CState := { c0 with current := current, status := st1 }
  -- training? (lines 176-181)
  w.svT.bind fun trainRunning =>
  if trainRunning then Except.ok (setStatus c1 ModelStatus.Training "Training...", [])
  else
  let lat1 := Model.latest c1.dir
  let c2 := { c1 with dir := lat1.2 }
  if optFalsy lat1.1 then
    Except.ok (setStatus c2 ModelStatus.Training "No valid model found, starting to train one",
         [ProcAction.startTrain])
  else
  -- running? (lines 184-187): restart(force=False) only re-queries the
  -- supervisor and execs the restart when not already running
  if m = "" then
    (w.slotRunning current).bind fun r =>
      Except.ok (setStatus c2 ModelStatus.Starting "Model is not running, starting...",
           if r then [] else [ProcAction.restart current false])
  else
  -- replacing? (lines 190-196); Python `and` short-circuits
  (w.slotRunning .p1).bind fun r1 =>
  (if r1 then w.slotRunning .p2 else Except.ok false : Except String Bool).bind fun r2 =>
  if r1 && r2 then
    if model1 ≠ "" ∧ model2 ≠ "" then
      Except.ok (setStatus c2 ModelStatus.Replacing "Replacing model...",
           [ProcAction.stop (if current = Slot.p2 then Slot.p1 else Slot.p2)])
    else
      Except.ok (setStatus c2 ModelStatus.Replacing "Replacing model...", [])
  else
  -- latest? (lines 199-204): re-read the active slot's model, compare to
  -- the (re-pruned) latest artifact
  (Program.current_model w current).bind fun mr =>
  let c3 := { c2 with status := { c2.status with model := mr } }
  let lat2 := Model.latest c3.dir
  let c4 := { c3 with dir := lat2.2 }
  if strNeOpt mr lat2.1 then
    Except.ok (setStatus c4 ModelStatus.Replacing "Current model is not latest, replacing...",
         [ProcAction.restart (if current = Slot.p2 then Slot.p1 else Slot.p2) true])
  else
    Except.ok (setStatus c4 ModelStatus.Running ("Current model: " ++ mr), [])

/-- Embedding of `put_model` (src/app.py lines 129-139). The per-model task
registry entry is `none` when no setup task was ever added, `some false`
while a task is pending, `some true` once it is done. The result is the new
registry entry, whether the request was answered as already-training
(busy), and whether a new training task was created. -/
def app.put_model (task : Option Bool) : Option Bool × Bool × Bool :=
  match task with
  | some false => (some false, true, false)
  | _ => (some false, false, true)

theorem bindOk {α β : Type} {e : Except String α} {a : α} (h : e = Except.ok a)
    (f : α → Except String β) : e.bind f = f a := by
  rw [h]
  rfl

theorem okBind {α β : Type} (a : α) (f : α → Except String β) :
    (Except.ok a : Except String α).bind f = f a := rfl

theorem bindTotal {α β : Type} {e : Except String α} (he : ∃ a, e = Except.ok a)
    {f : α → Except String β} (hf : ∀ a, ∃ b, f a = Except.ok b) :
    ∃ b, e.bind f = Except.ok b := by
  obtain ⟨a, ha⟩ := he
  obtain ⟨b, hb⟩ := hf a
  refine ⟨b, ?_⟩
  rw [bindOk ha]
  exact hb

theorem Program.current_model_ok {w : World} {s : Slot} {b : Bool}
    (h : w.slotRunning s = Except.ok b) :
    ∃ m, Program.current_model w s = Except.ok m := by
  unfold Program.current_model
  rw [h]
  cases b
  · exact ⟨"", rfl⟩
  · dsimp only
    by_cases h200 : (Program.endpoint (w.slotHttp s)).1 = 200
    · exact ⟨_, by rw [if_pos h200]⟩
    · exact ⟨"", by rw [if_neg h200]⟩

/-- C1: if the training process is in flight when `Model.check` runs (and
the slot-status queries answer), the call returns early with phase Training
and issues no process command at all — in particular it starts no second
training run; and a second `put_model` request while the setup task of the
first is not yet done is answered as busy without creating a new task, so
two back-to-back update requests create exactly one training task. -/
theorem C1_at_most_one_training (w : World) (c : CState) (b1 b2 : Bool)
    (h1 : w.sv1 = Except.ok b1) (h2 : w.sv2 = Except.ok b2)
    (hT : w.svT = Except.ok true) :
    (∃ c', Model.check w c = Except.ok (c', []) ∧
      c'.status.text = ModelStatus.Training) ∧
    app.put_model none = (some false, false, true) ∧
    app.put_model (app.put_model none).1 = (some false, true, false) := by
  refine ⟨?_, rfl, rfl⟩
  obtain ⟨m1, hm1⟩ := Program.current_model_ok (s := Slot.p1) h1
  obtain ⟨m2, hm2⟩ := Program.current_model_ok (s := Slot.p2) h2
  unfold Model.check
  rw [bindOk hm1, bindOk hm2, bindOk hT]
  exact ⟨_, rfl, rfl⟩

/-- C1 witness: concrete world with the training process running. -/
theorem C1_at_most_one_training_witness :
    (∃ c', Model.check ⟨Except.ok false, Except.ok false, Except.ok true,
        Transport.resp 200 none, Transport.resp 200 none⟩
        ⟨Slot.p1, [], ⟨"STOPPED", "", false, ""⟩⟩ = Except.ok (c', []) ∧
      c'.status.text = ModelStatus.Training) ∧
    app.put_model none = (some false, false, true) ∧
    app.put_model (app.put_model none).1 = (some false, true, false) :=
  C1_at_most_one_training ⟨Except.ok false, Except.ok false, Except.ok true,
      Transport.resp 200 none, Transport.resp 200 none⟩
    ⟨Slot.p1, [], ⟨"STOPPED", "", false, ""⟩⟩ false false rfl rfl rfl

theorem pyLt_not_nil (a : String) : ¬ pyLt a "" := by
  unfold pyLt
  intro h
  exact List.Lex.not_nil_right _ _ h

theorem Model.latest_latest (dir : List Artifact) :
    (Model.latest ((Model.latest dir).2)).1 = (Model.latest dir).1 := by
  by_cases hdir : dir = []
  · subst hdir
    rfl
  · unfold Model.latest
    simp only [if_neg hdir]
    have hsorted := List.sorted_insertionSort Artifact.laterEq dir
    rcases hs : List.insertionSort Artifact.laterEq dir with _ | ⟨a, rest⟩
    · exact absurd ((List.perm_insertionSort Artifact.laterEq dir).symm.trans
        (hs ▸ List.Perm.refl _)).eq_nil hdir
    · rw [hs] at hsorted
      have htk : (a :: rest).take 2 = a :: rest.take 1 := rfl
      have hne2 : a :: rest.take 1 ≠ [] := by simp
      simp only [htk, if_neg hne2]
      have hsorted2 : List.Sorted Artifact.laterEq (a :: rest.take 1) := by
        have : (a :: rest.take 1).Sublist (a :: rest) := by
          exact List.Sublist.cons₂ a (List.take_sublist 1 rest)
        exact List.Pairwise.sublist this hsorted
      rw [hsorted2.insertionSort_eq]
      rfl

/-- C3 counterexample: both slots run and report different non-empty loaded
artifacts, but the training process is also in flight, so `Model.check`
returns early with phase Training and stops nothing — the non-active slot is
not stopped and the phase is not Replacing, contrary to the claim's
universal statement. -/
theorem C3_counterexample_training_preempts_stop :
    World.slotRunning ⟨Except.ok true, Except.ok true, Except.ok true,
        Transport.resp 200 (some "models/a.tar.gz"),
        Transport.resp 200 (some "models/b.tar.gz")⟩ Slot.p1 = Except.ok true ∧
    World.slotRunning ⟨Except.ok true, Except.ok true, Except.ok true,
        Transport.resp 200 (some "models/a.tar.gz"),
        Transport.resp 200 (some "models/b.tar.gz")⟩ Slot.p2 = Except.ok true ∧
    Program.current_model ⟨Except.ok true, Except.ok true, Except.ok true,
        Transport.resp 200 (some "models/a.tar.gz"),
        Transport.resp 200 (some "models/b.tar.gz")⟩ Slot.p1 = Except.ok "a.tar.gz" ∧
    Program.current_model ⟨Except.ok true, Except.ok true, Except.ok true,
        Transport.resp 200 (some "models/a.tar.gz"),
        Transport.resp 200 (some "models/b.tar.gz")⟩ Slot.p2 = Except.ok "b.tar.gz" ∧
    Model.check ⟨Except.ok true, Except.ok true, Except.ok true,
        Transport.resp 200 (some "models/a.tar.gz"),
        Transport.resp 200 (some "models/b.tar.gz")⟩
      ⟨Slot.p1, [⟨"b.tar.gz", 5⟩], ⟨"STOPPED", "", false, ""⟩⟩ =
      Except.ok (⟨Slot.p2, [⟨"b.tar.gz", 5⟩],
          ⟨"TRAINING", "Training...", true, "b.tar.gz"⟩⟩, []) := by
  refine ⟨rfl, rfl, rfl, rfl, rfl⟩

/-- C3 (amended): when both slots are running and report different non-empty
loaded artifacts, and additionally no training process is in flight and a
(non-empty-named) latest artifact exists on disk, then the slot with the
greater loaded artifact name becomes the designated active slot, the other
slot is stopped (and nothing else is commanded), and the phase is set to
Replacing. -/
theorem C3_replace_resolution (w : World) (c : CState) (m1 m2 L : String)
    (hm1 : Program.current_model w Slot.p1 = Except.ok m1)
    (hm2 : Program.current_model w Slot.p2 = Except.ok m2)
    (hr1 : w.sv1 = Except.ok true) (hr2 : w.sv2 = Except.ok true)
    (hT : w.svT = Except.ok false)
    (hlat : (Model.latest c.dir).1 = some L) (hL : L ≠ "")
    (hne : m1 ≠ m2) (hne1 : m1 ≠ "") (hne2 : m2 ≠ "") :
    ∃ c', Model.check w c =
        Except.ok (c', [ProcAction.stop (if pyLt m2 m1 then Slot.p2 else Slot.p1)]) ∧
      c'.current = (if pyLt m2 m1 then Slot.p1 else Slot.p2) ∧
      (pyLt m2 m1 → c'.current = Slot.p1) ∧
      (pyLt m1 m2 → c'.current = Slot.p2) ∧
      c'.status.text = ModelStatus.Replacing := by
  have hsr1 : w.slotRunning Slot.p1 = Except.ok true := hr1
  have hsr2 : w.slotRunning Slot.p2 = Except.ok true := hr2
  unfold Model.check
  by_cases hgt : pyLt m2 m1
  · simp [bindOk hm1, bindOk hm2, bindOk hT, bindOk hsr1, bindOk hsr2,
      hne, hgt, hne1, hne2, hL, hlat, optFalsy]
    exact ⟨rfl, fun hlt => absurd hlt (pyLt_asymm hgt), rfl⟩
  · simp [bindOk hm1, bindOk hm2, bindOk hT, bindOk hsr1, bindOk hsr2,
      hne, hgt, hne1, hne2, hL, hlat, optFalsy]
    exact ⟨rfl, fun _ => rfl, rfl⟩

/-- C3 witness: concrete two-slots-up replace resolution. -/
theorem C3_replace_resolution_witness :
    ∃ c', Model.check ⟨Except.ok true, Except.ok true, Except.ok false,
        Transport.resp 200 (some "models/a.tar.gz"),
        Transport.resp 200 (some "models/b.tar.gz")⟩
        ⟨Slot.p1, [⟨"b.tar.gz", 5⟩], ⟨"STOPPED", "", false, ""⟩⟩ =
        Except.ok (c', [ProcAction.stop (if pyLt "b.tar.gz" "a.tar.gz" then Slot.p2
                                         else Slot.p1)]) ∧
      c'.current = (if pyLt "b.tar.gz" "a.tar.gz" then Slot.p1 else Slot.p2) ∧
      (pyLt "b.tar.gz" "a.tar.gz" → c'.current = Slot.p1) ∧
      (pyLt "a.tar.gz" "b.tar.gz" → c'.current = Slot.p2) ∧
      c'.status.text = ModelStatus.Replacing :=
  C3_replace_resolution ⟨Except.ok true, Except.ok true, Except.ok false,
      Transport.resp 200 (some "models/a.tar.gz"),
      Transport.resp 200 (some "models/b.tar.gz")⟩
    ⟨Slot.p1, [⟨"b.tar.gz", 5⟩], ⟨"STOPPED", "", false, ""⟩⟩
    "a.tar.gz" "b.tar.gz" "b.tar.gz" rfl rfl rfl rfl rfl rfl
    (by decide) (by decide) (by decide) (by decide)

/-- C4 counterexample: the active slot (slot 1) is running and its loaded
artifact `a.tar.gz` differs from the latest artifact on disk (`b.tar.gz`),
but the training process is in flight, so `Model.check` returns Training and
does not restart the other slot, contrary to the claim's universal
statement. -/
theorem C4_counterexample_training_preempts_replace :
    Program.current_model ⟨Except.ok true, Except.ok false, Except.ok true,
        Transport.resp 200 (some "models/a.tar.gz"), Transport.resp 200 none⟩
      Slot.p1 = Except.ok "a.tar.gz" ∧
    World.slotRunning ⟨Except.ok true, Except.ok false, Except.ok true,
        Transport.resp 200 (some "models/a.tar.gz"), Transport.resp 200 none⟩
      Slot.p1 = Except.ok true ∧
    (Model.latest [⟨"b.tar.gz", 5⟩]).1 = some "b.tar.gz" ∧
    Model.check ⟨Except.ok true, Except.ok false, Except.ok true,
        Transport.resp 200 (some "models/a.tar.gz"), Transport.resp 200 none⟩
      ⟨Slot.p1, [⟨"b.tar.gz", 5⟩], ⟨"STOPPED", "", false, ""⟩⟩ =
      Except.ok (⟨Slot.p1, [⟨"b.tar.gz", 5⟩],
          ⟨"TRAINING", "Training...", true, "a.tar.gz"⟩⟩, []) := by
  refine ⟨rfl, rfl, rfl, rfl⟩

/-- C4 (amended): when additionally no training process is in flight, a
(non-empty-named) latest artifact exists on disk, and the non-active slot is
not running, a `Model.check` that finds the active slot running with a
loaded artifact different from the latest artifact restarts the other slot
with force, sets phase Replacing, and issues no stop (the active slot keeps
serving). -/
theorem C4_stale_artifact_replacement (w : World) (c : CState) (mA L : String) (a : Slot)
    (hma : Program.current_model w a = Except.ok mA)
    (hmo : Program.current_model w a.other = Except.ok "")
    (hra : w.slotRunning a = Except.ok true)
    (hro : w.slotRunning a.other = Except.ok false)
    (hT : w.svT = Except.ok false)
    (hlat : (Model.latest c.dir).1 = some L) (hL : L ≠ "")
    (hmA : mA ≠ "") (hdiff : mA ≠ L) :
    ∃ c', Model.check w c = Except.ok (c', [ProcAction.restart a.other true]) ∧
      c'.current = a ∧ c'.status.text = ModelStatus.Replacing := by
  have h2 : (Model.latest ((Model.latest c.dir).2)).1 = some L := by
    rw [Model.latest_latest]
    exact hlat
  cases a
  case p1 =>
    have hm1 : Program.current_model w Slot.p1 = Except.ok mA := hma
    have hm2 : Program.current_model w Slot.p2 = Except.ok "" := hmo
    have hsr1 : w.slotRunning Slot.p1 = Except.ok true := hra
    have hsr2 : w.slotRunning Slot.p2 = Except.ok false := hro
    have hgt : pyLt "" mA := pyLt_nil hmA
    unfold Model.check
    simp [bindOk hm1, bindOk hm2, bindOk hT, bindOk hsr1, bindOk hsr2, okBind,
      hmA, hgt, hL, hlat, optFalsy, h2, strNeOpt, bne_iff_ne, hdiff, Slot.other]
    exact ⟨rfl, rfl⟩
  case p2 =>
    have hm1 : Program.current_model w Slot.p1 = Except.ok "" := hmo
    have hm2 : Program.current_model w Slot.p2 = Except.ok mA := hma
    have hsr1 : w.slotRunning Slot.p1 = Except.ok false := hro
    have hsr2 : w.slotRunning Slot.p2 = Except.ok true := hra
    have hlt : ¬ pyLt mA "" := pyLt_not_nil mA
    have hne : "" ≠ mA := Ne.symm hmA
    unfold Model.check
    simp [bindOk hm1, bindOk hm2, bindOk hT, bindOk hsr1, bindOk hsr2, okBind,
      hmA, hne, hlt, hL, hlat, optFalsy, h2, strNeOpt, bne_iff_ne, hdiff, Slot.other]
    exact ⟨rfl, rfl⟩

/-- C4 witness: concrete stale-artifact reconcile restarting the idle slot. -/
theorem C4_stale_artifact_replacement_witness :
    ∃ c', Model.check ⟨Except.ok true, Except.ok false, Except.ok false,
        Transport.resp 200 (some "models/a.tar.gz"), Transport.resp 200 none⟩
        ⟨Slot.p1, [⟨"b.tar.gz", 5⟩], ⟨"STOPPED", "", false, ""⟩⟩ =
        Except.ok (c', [ProcAction.restart Slot.p1.other true]) ∧
      c'.current = Slot.p1 ∧ c'.status.text = ModelStatus.Replacing :=
  C4_stale_artifact_replacement ⟨Except.ok true, Except.ok false, Except.ok false,
      Transport.resp 200 (some "models/a.tar.gz"), Transport.resp 200 none⟩
    ⟨Slot.p1, [⟨"b.tar.gz", 5⟩], ⟨"STOPPED", "", false, ""⟩⟩
    "a.tar.gz" "b.tar.gz" Slot.p1 rfl rfl rfl rfl rfl rfl
    (by decide) (by decide) (by decide)

/-- C6 counterexample: a supervisor transport failure inside
`Program.is_running` (called for slot 1 at the top of `Model.check`)
propagates out of the call as an exception instead of being absorbed into an
Error status — indeed the source's `ModelStatus` defines no Error phase at
all. -/
theorem C6_counterexample_supervisor_error_propagates :
    Model.check ⟨Except.error "supervisor unreachable", Except.ok false,
        Except.ok false, Transport.resp 200 none, Transport.resp 200 none⟩
      ⟨Slot.p1, [], ⟨"STOPPED", "", false, ""⟩⟩ =
      Except.error "supervisor unreachable" ∧
    [ModelStatus.Stopped, ModelStatus.Starting, ModelStatus.Training,
      ModelStatus.Replacing, ModelStatus.Running].all (fun t => t != "ERROR") = true := by
  exact ⟨rfl, rfl⟩

/-- C7: the health query returns a non-empty loaded-artifact name only when
the process is reported running and the status endpoint answered HTTP 200;
any non-200 response yields the empty string; and an HTTP transport error is
converted internally to a 500 result, so the query returns the empty string
without raising. -/
theorem C7_health_error_handling (w : World) (s : Slot) :
    (∀ m : String, Program.current_model w s = Except.ok m → m ≠ "" →
      w.slotRunning s = Except.ok true ∧
      (Program.endpoint (w.slotHttp s)).1 = 200) ∧
    (∀ (st : Nat) (mf : Option String), w.slotRunning s = Except.ok true →
      w.slotHttp s = Transport.resp st mf → st ≠ 200 →
      Program.current_model w s = Except.ok "") ∧
    (∀ e : String, w.slotHttp s = Transport.err e →
      Program.endpoint (w.slotHttp s) = (500, none) ∧
      (w.slotRunning s = Except.ok true → Program.current_model w s = Except.ok "")) := by
  refine ⟨?_, ?_, ?_⟩
  · intro m hm hne
    unfold Program.current_model at hm
    rcases hr : w.slotRunning s with e | b
    · rw [hr] at hm
      exact absurd hm (by simp)
    · rw [hr] at hm
      cases b
      · simp only [Except.ok.injEq] at hm
        exact absurd hm.symm hne
      · refine ⟨rfl, ?_⟩
        by_cases h200 : (Program.endpoint (w.slotHttp s)).1 = 200
        · exact h200
        · rw [if_neg h200] at hm
          simp only [Except.ok.injEq] at hm
          exact absurd hm.symm hne
  · intro st mf hr hh hne
    unfold Program.current_model
    rw [hr, hh]
    have : (Program.endpoint (Transport.resp st mf)).1 = st := rfl
    rw [if_neg (by rw [this]; exact hne)]
  · intro e hh
    refine ⟨by rw [hh]; rfl, ?_⟩
    intro hr
    unfold Program.current_model
    rw [hr, hh]
    rfl

/-- C7 witness: a 404 from the status endpoint yields no artifact name. -/
theorem C7_health_error_handling_witness :
    Program.current_model ⟨Except.ok true, Except.ok true, Except.ok false,
        Transport.resp 404 (some "models/a.tar.gz"), Transport.err "refused"⟩
      Slot.p1 = Except.ok "" :=
  (C7_health_error_handling ⟨Except.ok true, Except.ok true, Except.ok false,
      Transport.resp 404 (some "models/a.tar.gz"), Transport.err "refused"⟩
    Slot.p1).2.1 404 (some "models/a.tar.gz") rfl rfl (by decide)

theorem ifFalseTrue {α : Type} (a b : α) : (if false = true then a else b) = b := rfl

theorem ifTrueTrue {α : Type} (a b : α) : (if true = true then a else b) = a := rfl

/-- C6 (amended): worker HTTP transport failures are absorbed inside
`Program.endpoint` (converted to a 500 result) and never propagate:
whenever the three supervisor queries themselves answer, `Model.check`
returns normally whatever the HTTP outcomes are; but a supervisor RPC
transport failure is not caught anywhere and propagates out of the call
(see the counterexample), and no Error phase exists. -/
theorem C6_error_absorption (w : World) (c : CState) (b1 b2 bT : Bool)
    (h1 : w.sv1 = Except.ok b1) (h2 : w.sv2 = Except.ok b2)
    (hT : w.svT = Except.ok bT) :
    (∃ r, Model.check w c = Except.ok r) ∧
    (∀ e : String, Program.endpoint (Transport.err e) = (500, none)) := by
  refine ⟨?_, fun e => rfl⟩
  have hb1 : w.slotRunning Slot.p1 = Except.ok b1 := h1
  have hb2 : w.slotRunning Slot.p2 = Except.ok b2 := h2
  obtain ⟨m1, hm1⟩ := Program.current_model_ok (s := Slot.p1) h1
  obtain ⟨m2, hm2⟩ := Program.current_model_ok (s := Slot.p2) h2
  unfold Model.check
  rw [bindOk hm1, bindOk hm2, bindOk hT]
  dsimp only
  cases bT
  case true => exact ⟨_, rfl⟩
  case false =>
  rw [ifFalseTrue]
  by_cases hfal : optFalsy (Model.latest c.dir).1 = true
  · rw [if_pos hfal]
    exact ⟨_, rfl⟩
  · rw [if_neg hfal]
    have hsd : ∀ s : Slot, ∃ bb, w.slotRunning s = Except.ok bb := by
      intro s
      cases s
      · exact ⟨b1, hb1⟩
      · exact ⟨b2, hb2⟩
    obtain ⟨bd, hbd⟩ := hsd (if m1 ≠ m2 then (if pyLt m2 m1 then Slot.p1 else Slot.p2)
      else c.current)
    obtain ⟨md, hmd⟩ := Program.current_model_ok hbd
    by_cases hm0 : (if (if m1 ≠ m2 then (if pyLt m2 m1 then Slot.p1 else Slot.p2)
        else c.current) = Slot.p1 then m1 else m2) = ""
    · rw [if_pos hm0, bindOk hbd]
      exact ⟨_, rfl⟩
    · rw [if_neg hm0, bindOk hb1]
      rcases b1 with _ | _
      · rw [ifFalseTrue, okBind, Bool.false_and, ifFalseTrue, bindOk hmd]
        by_cases hsn : strNeOpt md (Model.latest ((Model.latest c.dir).2)).1 = true
        · rw [if_pos hsn]
          exact ⟨_, rfl⟩
        · rw [if_neg hsn]
          exact ⟨_, rfl⟩
      · rw [ifTrueTrue, bindOk hb2]
        rcases b2 with _ | _
        · rw [Bool.true_and, ifFalseTrue, bindOk hmd]
          by_cases hsn : strNeOpt md (Model.latest ((Model.latest c.dir).2)).1 = true
          · rw [if_pos hsn]
            exact ⟨_, rfl⟩
          · rw [if_neg hsn]
            exact ⟨_, rfl⟩
        · rw [Bool.true_and, ifTrueTrue]
          by_cases hmm : m1 ≠ "" ∧ m2 ≠ ""
          · rw [if_pos hmm]
            exact ⟨_, rfl⟩
          · rw [if_neg hmm]
            exact ⟨_, rfl⟩

/-- C6 witness: concrete reconcile with both workers unreachable over HTTP
still returns normally. -/
theorem C6_error_absorption_witness :
    (∃ r, Model.check ⟨Except.ok true, Except.ok false, Except.ok false,
        Transport.err "connection refused", Transport.err "connection refused"⟩
      ⟨Slot.p1, [⟨"a.tar.gz", 3⟩], ⟨"STOPPED", "", false, ""⟩⟩ = Except.ok r) ∧
    (∀ e : String, Program.endpoint (Transport.err e) = (500, none)) :=
  C6_error_absorption ⟨Except.ok true, Except.ok false, Except.ok false,
      Transport.err "connection refused", Transport.err "connection refused"⟩
    ⟨Slot.p1, [⟨"a.tar.gz", 3⟩], ⟨"STOPPED", "", false, ""⟩⟩ true false false rfl rfl rfl

/-- C2 witness: concrete three-artifact directory is pruned to two and the
newest name is returned. -/
theorem C2_retention_invariant_witness :
    (Model.latest ([⟨"a", 1⟩, ⟨"b", 3⟩, ⟨"c", 2⟩] : List Artifact)).2.length ≤ 2 ∧
    (∀ a ∈ (Model.latest ([⟨"a", 1⟩, ⟨"b", 3⟩, ⟨"c", 2⟩] : List Artifact)).2,
      a ∈ ([⟨"a", 1⟩, ⟨"b", 3⟩, ⟨"c", 2⟩] : List Artifact)) ∧
    ((Model.latest ([⟨"a", 1⟩, ⟨"b", 3⟩, ⟨"c", 2⟩] : List Artifact)).1 = none ↔
      ([⟨"a", 1⟩, ⟨"b", 3⟩, ⟨"c", 2⟩] : List Artifact) = []) ∧
    (∀ n, (Model.latest ([⟨"a", 1⟩, ⟨"b", 3⟩, ⟨"c", 2⟩] : List Artifact)).1 = some n →
      ∃ a ∈ ([⟨"a", 1⟩, ⟨"b", 3⟩, ⟨"c", 2⟩] : List Artifact), a.name = n ∧
        ∀ b ∈ ([⟨"a", 1⟩, ⟨"b", 3⟩, ⟨"c", 2⟩] : List Artifact), b.ctime ≤ a.ctime) :=
  C2_retention_invariant [⟨"a", 1⟩, ⟨"b", 3⟩, ⟨"c", 2⟩]
